import Mathlib

/-!
Verification of the KindleCards spaced-repetition scheduler.

Shallow embedding of the two scheduler variants of the repository:

* `KindleCards.Anki` embeds the Anki-style scheduler class
  (`SpacedRepetitionSystem` with the four-button review model, the
  learning/relearning step machinery, leech burial and the query
  operations `getDueCards` / `getNewCards` / `getStudyCards` /
  `getSortedCards` / `getStats`, plus `loadData` / `exportData` and the
  static card-id derivation).
* `KindleCards.SM2` embeds the simplified SM-2 scheduler variant
  (`spaced-repetition.ts`), whose configuration carries
  `minimumEaseFactor`.

Modelling conventions:
* JavaScript numbers (floats) are modelled as `ℚ`; `Date` values are
  modelled as their millisecond timestamps, also in `ℚ`.  `Math.floor`,
  `Math.ceil`, `Math.max`, `Math.min` become `Int.floor`, `Int.ceil`,
  `max`, `min`.
* The JavaScript truthiness idiom `x || d` on numbers is modelled by
  `orQ` / `orN` (`0` is the only falsy value reachable in this model).
* The `Map<string, CardReviewData>` is modelled as an insertion-ordered
  association list; `Map.set` replaces in place or appends.
* Each scheduler operation reads the clock once; the embedding passes
  one `now : ℚ` per operation.
-/

namespace KindleCards

/-- The `difficulty` field of `CardReviewData` (`src/types.ts`). -/
inductive Difficulty where
  | new
  | learning
  | review
  | relearning
deriving DecidableEq, Repr

/-- Structure `CardReviewData` from `src/types.ts` (the Anki-style field set). -/
structure CardReviewData where
  cardId : String
  easeFactor : ℚ
  interval : ℚ
  repetitions : ℕ
  nextReview : ℚ
  lastReviewed : ℚ
  totalReviews : ℕ
  correctStreak : ℕ
  difficulty : Difficulty
  lapses : ℕ
  learningSteps : List ℚ
  currentStep : ℕ
  graduated : Bool
  buried : Bool
deriving DecidableEq, Repr

/-- The four review outcomes of `ReviewResult.quality` (`src/types.ts`). -/
inductive Quality where
  | again
  | hard
  | good
  | easy
deriving DecidableEq, Repr

/-- The SRS-relevant fields of `KindleCardsSettings` (`src/types.ts`).
Counting caps are kept as `ℕ`; every other knob is a JS number (`ℚ`). -/
structure KindleCardsSettings where
  learningSteps : List ℚ
  relearningSteps : List ℚ
  graduatingInterval : ℚ
  easyInterval : ℚ
  startingEase : ℚ
  easyBonus : ℚ
  intervalModifier : ℚ
  maximumInterval : ℚ
  hardInterval : ℚ
  newInterval : ℚ
  minimumInterval : ℚ
  leechThreshold : ℕ
  newCardsPerDay : ℕ
  maximumReviewsPerDay : ℕ
deriving DecidableEq, Repr

/-- JS `x || d` for numbers: `0` is falsy, everything else truthy. -/
def orQ (x d : ℚ) : ℚ := if x = 0 then d else x

/-- JS `x || d` for the counting caps modelled as `ℕ`. -/
def orN (x d : ℕ) : ℕ := if x = 0 then d else x

namespace Anki

/-- The settings object installed by the constructor of the Anki-style
`SpacedRepetitionSystem` when no settings are passed.  The two daily
caps are absent from the literal in the source; an absent (`undefined`)
numeric field behaves exactly like `0` under `x || d`, so they are `0`
here. -/
def defaultSettings : KindleCardsSettings where
  learningSteps := [1, 10]
  relearningSteps := [10]
  graduatingInterval := 1
  easyInterval := 4
  startingEase := 5/2
  easyBonus := 13/10
  intervalModifier := 1
  maximumInterval := 36500
  hardInterval := 12/10
  newInterval := 0
  minimumInterval := 1
  leechThreshold := 8
  newCardsPerDay := 0
  maximumReviewsPerDay := 0

/-- Embeds `createNewCardData` of the Anki-style scheduler. -/
def createNewCardData (s : KindleCardsSettings) (cardId : String) (now : ℚ) :
    CardReviewData where
  cardId := cardId
  easeFactor := orQ s.startingEase (5/2)
  interval := 0
  repetitions := 0
  nextReview := now
  lastReviewed := 0
  totalReviews := 0
  correctStreak := 0
  difficulty := .new
  lapses := 0
  learningSteps := s.learningSteps
  currentStep := 0
  graduated := false
  buried := false

/-- The minutes taken from `data.learningSteps[stepIndex] || 1` inside
`scheduleInLearning`: an out-of-range index yields `undefined`, and both
`undefined` and `0` fall back to `1`. -/
def learningStepMinutes (steps : List ℚ) (i : ℕ) : ℚ :=
  match steps.get? i with
  | some m => if m = 0 then 1 else m
  | none => 1

/-- Embeds `scheduleInLearning` of the Anki-style scheduler. -/
def scheduleInLearning (d : CardReviewData) (stepIndex : ℕ) (now : ℚ) :
    CardReviewData :=
  { d with
    currentStep := stepIndex
    nextReview := now + learningStepMinutes d.learningSteps stepIndex * 60 * 1000 }

/-- Embeds `scheduleReview` of the Anki-style scheduler. -/
def scheduleReview (d : CardReviewData) (now : ℚ) : CardReviewData :=
  { d with nextReview := now + d.interval * (24 * 60 * 60 * 1000) }

/-- Embeds `graduateCard` of the Anki-style scheduler. -/
def graduateCard (d : CardReviewData) (interval : ℚ) (now : ℚ) :
    CardReviewData :=
  scheduleReview
    { d with
      difficulty := .review
      graduated := true
      interval := interval
      repetitions := 1
      correctStreak := 1 }
    now

/-- Embeds `handleNewCard` of the Anki-style scheduler. -/
def handleNewCard (s : KindleCardsSettings) (d : CardReviewData) (q : Quality)
    (now : ℚ) : CardReviewData :=
  let d := { d with difficulty := Difficulty.learning, currentStep := 0 }
  match q with
  | .again => scheduleInLearning d 0 now
  | .hard => scheduleInLearning d 0 now
  | .good => scheduleInLearning d 0 now
  | .easy => graduateCard d (orQ s.easyInterval 4) now

/-- Embeds `handleLearningCard` of the Anki-style scheduler.  The JS guard
`currentStep < learningSteps.length - 1` coincides with the truncated
`ℕ` subtraction here because `currentStep ≥ 0`. -/
def handleLearningCard (s : KindleCardsSettings) (d : CardReviewData)
    (q : Quality) (now : ℚ) : CardReviewData :=
  match q with
  | .again => scheduleInLearning d 0 now
  | .hard => scheduleInLearning d (d.currentStep - 1) now
  | .good =>
      if d.currentStep < d.learningSteps.length - 1 then
        scheduleInLearning d (d.currentStep + 1) now
      else
        graduateCard d (orQ s.graduatingInterval 1) now
  | .easy => graduateCard d (orQ s.easyInterval 4) now

/-- Embeds `handleReviewCard` of the Anki-style scheduler, including the final
cap `interval := min interval (maximumInterval || 36500)`.  Note that
`settings.minimumInterval` is not read anywhere in this function. -/
def handleReviewCard (s : KindleCardsSettings) (d : CardReviewData)
    (q : Quality) (now : ℚ) : CardReviewData :=
  let oldInterval := d.interval
  let d1 :=
    match q with
    | .again =>
        scheduleInLearning
          { d with
            lapses := d.lapses + 1
            difficulty := .relearning
            currentStep := 0
            learningSteps := s.relearningSteps
            easeFactor := max (13/10) (d.easeFactor - 2/10)
            interval := max 1 ((Rat.floor (oldInterval * orQ s.newInterval 0) : ℤ) : ℚ) }
          0 now
    | .hard =>
        scheduleReview
          { d with
            interval :=
              max (d.interval + 1)
                ((Rat.floor (oldInterval * orQ s.hardInterval (12/10) *
                    orQ s.intervalModifier 1) : ℤ) : ℚ)
            easeFactor := max (13/10) (d.easeFactor - 3/20) }
          now
    | .good =>
        scheduleReview
          { d with
            interval :=
              ((Rat.floor (oldInterval * d.easeFactor * orQ s.intervalModifier 1) : ℤ) : ℚ)
            repetitions := d.repetitions + 1
            correctStreak := d.correctStreak + 1 }
          now
    | .easy =>
        scheduleReview
          { d with
            interval :=
              ((Rat.floor (oldInterval * d.easeFactor * orQ s.easyBonus (13/10) *
                  orQ s.intervalModifier 1) : ℤ) : ℚ)
            easeFactor := d.easeFactor + 3/20
            repetitions := d.repetitions + 1
            correctStreak := d.correctStreak + 1 }
          now
  { d1 with interval := min d1.interval (orQ s.maximumInterval 36500) }

/-- Embeds `handleRelearningCard` of the Anki-style scheduler. -/
def handleRelearningCard (s : KindleCardsSettings) (d : CardReviewData)
    (q : Quality) (now : ℚ) : CardReviewData :=
  match q with
  | .again => scheduleInLearning d 0 now
  | .hard => scheduleInLearning d (d.currentStep - 1) now
  | .good =>
      if d.currentStep < d.learningSteps.length - 1 then
        scheduleInLearning d (d.currentStep + 1) now
      else
        scheduleReview { d with difficulty := .review, graduated := true } now
  | .easy =>
      scheduleReview
        { d with
          difficulty := .review
          graduated := true
          interval := ((Rat.floor (d.interval * orQ s.easyBonus (13/10)) : ℤ) : ℚ) }
        now

/-- The per-record effect of `reviewCard`: bookkeeping, dispatch on the
current difficulty, then the leech check
`lapses >= (leechThreshold || 8)` that sets `buried`. -/
def reviewCardData (s : KindleCardsSettings) (d : CardReviewData) (q : Quality)
    (now : ℚ) : CardReviewData :=
  let d0 := { d with lastReviewed := now, totalReviews := d.totalReviews + 1 }
  let d1 :=
    match d0.difficulty with
    | .new => handleNewCard s d0 q now
    | .learning => handleLearningCard s d0 q now
    | .review => handleReviewCard s d0 q now
    | .relearning => handleRelearningCard s d0 q now
  if orN s.leechThreshold 8 ≤ d1.lapses then { d1 with buried := true } else d1

/-- The private `reviewData : Map<string, CardReviewData>` of the
scheduler, modelled as an insertion-ordered association list. -/
abbrev ReviewMap := List (String × CardReviewData)

/-- JS `Map.get` (as an option). -/
def mapLookup (m : ReviewMap) (k : String) : Option CardReviewData :=
  match m with
  | [] => none
  | (k1, v1) :: t => if k1 = k then some v1 else mapLookup t k

/-- JS `Map.set`: replace the binding in place if the key is present, else
append at the end (JS `Map` insertion order). -/
def mapSet (m : ReviewMap) (k : String) (v : CardReviewData) : ReviewMap :=
  match m with
  | [] => [(k, v)]
  | (k1, v1) :: t => if k1 = k then (k1, v) :: t else (k1, v1) :: mapSet t k v

/-- Embeds `getCardData` of the Anki-style scheduler: look the card up,
inserting a fresh New-state record first when it is absent.  Returns
the record together with the (possibly grown) map. -/
def getCardData (s : KindleCardsSettings) (m : ReviewMap) (k : String)
    (now : ℚ) : CardReviewData × ReviewMap :=
  match mapLookup m k with
  | some d => (d, m)
  | none =>
      let d := createNewCardData s k now
      (d, mapSet m k d)

/-- The record the scheduler observes for `k`: the stored one, or the
fresh New-state record that `getCardData` would insert. -/
def matRec (s : KindleCardsSettings) (m : ReviewMap) (now : ℚ) (k : String) :
    CardReviewData :=
  (mapLookup m k).getD (createNewCardData s k now)

/-- Embeds `reviewCard` of the Anki-style scheduler: materialise the record,
apply the per-record transition, store the result. -/
def reviewCard (s : KindleCardsSettings) (m : ReviewMap) (k : String)
    (q : Quality) (now : ℚ) : CardReviewData × ReviewMap :=
  let r := getCardData s m k now
  let d := reviewCardData s r.1 q now
  (d, mapSet r.2 k d)

/-- The `cardIds.filter(cardId => { const data = this.getCardData(cardId);
... })` pattern shared by `getDueCards`, `getNewCards` and the due-card
part of `getStudyCards`: a filter whose predicate materialises records
through `getCardData`, threading the map. -/
def filterCards (s : KindleCardsSettings) (p : CardReviewData → Bool) :
    ReviewMap → List String → ℚ → List String × ReviewMap
  | m, [], _ => ([], m)
  | m, k :: rest, now =>
      let r := getCardData s m k now
      let tl := filterCards s p r.2 rest now
      (if p r.1 then k :: tl.1 else tl.1, tl.2)

/-- Embeds `getDueCards` of the Anki-style scheduler. -/
def getDueCards (s : KindleCardsSettings) (m : ReviewMap) (ids : List String)
    (now : ℚ) : List String × ReviewMap :=
  let r := filterCards s (fun d => !d.buried && decide (d.nextReview ≤ now)) m ids now
  let maxReviews := orN s.maximumReviewsPerDay 0
  (if 0 < maxReviews then r.1.take maxReviews else r.1, r.2)

/-- Embeds `getNewCards` of the Anki-style scheduler (cap
`newCardsPerDay || 20`). -/
def getNewCards (s : KindleCardsSettings) (m : ReviewMap) (ids : List String)
    (now : ℚ) : List String × ReviewMap :=
  let r := filterCards s (fun d => !d.buried && decide (d.difficulty = .new)) m ids now
  (r.1.take (orN s.newCardsPerDay 20), r.2)

/-- Embeds `getStudyCards` of the Anki-style scheduler: learning/relearning and
due review cards first, then new cards, truncated to
`maximumReviewsPerDay` when that cap is nonzero. -/
def getStudyCards (s : KindleCardsSettings) (m : ReviewMap) (ids : List String)
    (now : ℚ) : List String × ReviewMap :=
  let due := filterCards s
    (fun d => !d.buried && decide (d.nextReview ≤ now) &&
      (decide (d.difficulty = .learning) || decide (d.difficulty = .relearning) ||
        decide (d.difficulty = .review))) m ids now
  let newc := getNewCards s due.2 ids now
  let study := due.1 ++ newc.1
  let maxReviews := orN s.maximumReviewsPerDay 0
  (if 0 < maxReviews then study.take maxReviews else study, newc.2)

/-- The comparator body of `getSortedCards`, on two materialised
records.  It returns the (sign-relevant) JS number. -/
def comparePriority (a b : CardReviewData) (now : ℚ) : ℚ :=
  if a.buried = true ∧ b.buried = false then 1
  else if a.buried = false ∧ b.buried = true then -1
  else if (a.difficulty = .learning ∨ a.difficulty = .relearning) ∧
      (b.difficulty ≠ .learning ∧ b.difficulty ≠ .relearning) then -1
  else if (a.difficulty ≠ .learning ∧ a.difficulty ≠ .relearning) ∧
      (b.difficulty = .learning ∨ b.difficulty = .relearning) then 1
  else if (a.difficulty = .learning ∨ a.difficulty = .relearning) ∧
      (b.difficulty = .learning ∨ b.difficulty = .relearning) then
    a.nextReview - b.nextReview
  else if a.nextReview ≤ now ∧ ¬ b.nextReview ≤ now then -1
  else if ¬ a.nextReview ≤ now ∧ b.nextReview ≤ now then 1
  else if a.nextReview ≤ now ∧ b.nextReview ≤ now then
    a.nextReview - b.nextReview
  else if a.difficulty = .new ∧ b.difficulty ≠ .new then 1
  else if a.difficulty ≠ .new ∧ b.difficulty = .new then -1
  else a.easeFactor - b.easeFactor

/-- Materialise every candidate id in order, as the first comparator
calls of `getSortedCards` do through `getCardData`. -/
def ensureAll (s : KindleCardsSettings) (m : ReviewMap) (ids : List String)
    (now : ℚ) : ReviewMap :=
  ids.foldl (fun m k => (getCardData s m k now).2) m

/-- The sort relation used by `getSortedCards`: id `a` may be placed
before id `b` when the comparator is nonpositive. -/
def sortRel (s : KindleCardsSettings) (m : ReviewMap) (now : ℚ)
    (a b : String) : Prop :=
  comparePriority (matRec s m now a) (matRec s m now b) now ≤ 0

instance sortRelDecidable (s : KindleCardsSettings) (m : ReviewMap) (now : ℚ) :
    DecidableRel (sortRel s m now) := fun a b =>
  inferInstanceAs (Decidable (comparePriority (matRec s m now a) (matRec s m now b) now ≤ 0))

/-- Embeds `getSortedCards` of the Anki-style scheduler: every comparison reads
records through `getCardData`, so all candidate records are materialised
and the ids are then sorted by `comparePriority`. -/
def getSortedCards (s : KindleCardsSettings) (m : ReviewMap)
    (ids : List String) (now : ℚ) : List String × ReviewMap :=
  let m1 := ensureAll s m ids now
  (List.insertionSort (sortRel s m1 now) ids, m1)

/-- Top-level tier of the priority comparator: buried cards sort after
everything else. -/
def tier1 (d : CardReviewData) : ℚ := if d.buried = true then 1 else 0

/-- Second tier of the priority comparator, for a fixed burial status:
learning/relearning first, then due cards, then (non-due) review, then
(non-due) new cards. -/
def tier2 (now : ℚ) (d : CardReviewData) : ℚ :=
  if d.difficulty = .learning ∨ d.difficulty = .relearning then 0
  else if d.nextReview ≤ now then 1
  else if d.difficulty = .new then 3
  else 2

/-- Third tier of the priority comparator: the numeric key compared
inside a tier (next-review timestamp for learning and due cards, ease
factor otherwise). -/
def tier3 (now : ℚ) (d : CardReviewData) : ℚ :=
  if (d.difficulty = .learning ∨ d.difficulty = .relearning) ∨ d.nextReview ≤ now then
    d.nextReview
  else d.easeFactor

/-- The lexicographic reading of `comparePriority ≤ 0`. -/
def keyLe (now : ℚ) (a b : CardReviewData) : Prop :=
  tier1 a < tier1 b ∨
    (tier1 a = tier1 b ∧
      (tier2 now a < tier2 now b ∨
        (tier2 now a = tier2 now b ∧ tier3 now a ≤ tier3 now b)))

/-- Structure `SpacedRepetitionStats` (`src/types.ts`). -/
structure SpacedRepetitionStats where
  total : ℕ
  new : ℕ
  learning : ℕ
  review : ℕ
  due : ℕ
  averageEase : ℚ
deriving DecidableEq, Repr

/-- Accumulator of the `getStats` loop: the four counters plus
`totalEase` / `easeCount`. -/
structure StatsAcc where
  new : ℕ
  learning : ℕ
  review : ℕ
  due : ℕ
  totalEase : ℚ
  easeCount : ℕ
deriving DecidableEq, Repr

/-- The contribution of one non-buried record to the `getStats`
counters. -/
def statsBump (d : CardReviewData) (now : ℚ) (acc : StatsAcc) : StatsAcc :=
  if d.buried = true then acc
  else if d.difficulty = .new then { acc with new := acc.new + 1 }
  else if d.difficulty = .learning ∨ d.difficulty = .relearning then
    { acc with
      learning := acc.learning + 1
      due := if d.nextReview ≤ now then acc.due + 1 else acc.due }
  else if d.difficulty = .review then
    { acc with
      review := acc.review + 1
      due := if d.nextReview ≤ now then acc.due + 1 else acc.due
      totalEase := acc.totalEase + d.easeFactor
      easeCount := acc.easeCount + 1 }
  else acc

/-- The per-card loop of `getStats`, materialising records via
`getCardData`. -/
def statsLoop (s : KindleCardsSettings) :
    ReviewMap → List String → ℚ → StatsAcc × ReviewMap
  | m, [], _ => (⟨0, 0, 0, 0, 0, 0⟩, m)
  | m, k :: rest, now =>
      let r := getCardData s m k now
      let tl := statsLoop s r.2 rest now
      (statsBump r.1 now tl.1, tl.2)

/-- Embeds `getStats` of the Anki-style scheduler. -/
def getStats (s : KindleCardsSettings) (m : ReviewMap) (ids : List String)
    (now : ℚ) : SpacedRepetitionStats × ReviewMap :=
  let r := statsLoop s m ids now
  (⟨ids.length, r.1.new, r.1.learning, r.1.review, r.1.due,
    if 0 < r.1.easeCount then r.1.totalEase / r.1.easeCount
    else orQ s.startingEase (5/2)⟩, r.2)

/-- Embeds `migrateDifficulty` of the Anki-style scheduler: its `switch` has
cases for `'new'`, `'learning'` and `'review'` only, so `'relearning'`
falls into the `default` branch and becomes `'new'`. -/
def migrateDifficulty (d : Difficulty) : Difficulty :=
  match d with
  | .new => .new
  | .learning => .learning
  | .review => .review
  | .relearning => .new

/-- The per-record part of `loadData`.  In this total model every field
is present, so the `|| fallback` and `!== undefined` guards of the
source keep the stored value (`0`, `[]`, `false` are their own
fallbacks); the one observable rewrite is `migrateDifficulty`. -/
def loadRecord (d : CardReviewData) : CardReviewData :=
  { d with
    lapses := orN d.lapses 0
    learningSteps := d.learningSteps
    currentStep := orN d.currentStep 0
    graduated := d.graduated
    buried := d.buried || false
    difficulty := migrateDifficulty d.difficulty }

/-- Embeds `loadData` of the Anki-style scheduler (the import half of the
snapshot round trip). -/
def loadData (saved : List (String × CardReviewData)) : ReviewMap :=
  saved.foldl (fun m kv => mapSet m kv.1 (loadRecord kv.2)) []

/-- Embeds `exportData` of the Anki-style scheduler: a per-record copy of the
map. -/
def exportData (m : ReviewMap) : List (String × CardReviewData) := m

/-- UTF-16 code units of a string, as used by `charCodeAt` (exact for
the basic multilingual plane, which covers every string in this
development). -/
def jsCharCodes (str : String) : List ℕ := str.data.map Char.toNat

/-- JS `ToInt32`: wrap an integer into `[-2^31, 2^31)`. -/
def toInt32 (x : ℤ) : ℤ := (x + 2 ^ 31) % 2 ^ 32 - 2 ^ 31

/-- One step of `hashString`: `hash = ((hash << 5) - hash) + char`
followed by `hash = hash & hash` (the 32-bit wrap). -/
def hashStep (h : ℤ) (c : ℕ) : ℤ := toInt32 (toInt32 (h * 32) - h + c)

/-- JS `padStart(8, '0')`. -/
def padStart8 (str : String) : String :=
  ⟨List.replicate (8 - str.data.length) '0' ++ str.data⟩

/-- Embeds `hashString` of the Anki-style scheduler: rolling 32-bit hash,
absolute value, lower-case hex, padded to 8 characters. -/
def hashString (str : String) : String :=
  padStart8 (Nat.toDigits 16 ((jsCharCodes str).foldl hashStep 0).natAbs).asString

/-- Embeds `generateCardId`: `none` models the thrown error.  The guard is the
JS truthiness test `!title || !author || !content`, which fires exactly
on empty strings; trimming happens only afterwards, when the combined
input is built. -/
def generateCardId (title author content : String) : Option String :=
  if title = "" ∨ author = "" ∨ content = "" then none
  else
    some (hashString
      (title.trim ++ "|" ++ author.trim ++ "|" ++
        (String.mk (content.data.take 100)).trim))

/-- Concrete configuration with a nondefault `minimumInterval`. -/
def exSettingsMin2 : KindleCardsSettings :=
  { defaultSettings with minimumInterval := 2 }

/-- Concrete configuration with `leechThreshold = 1`. -/
def exSettingsLeech1 : KindleCardsSettings :=
  { defaultSettings with leechThreshold := 1 }

/-- A concrete graduated Review-state card with a one-day interval, due
at time `0`. -/
def exReviewCard : CardReviewData :=
  { createNewCardData defaultSettings "r" 0 with
    difficulty := .review
    interval := 1
    graduated := true }

/-- A concrete Review-state card scheduled in the future (timestamp
`2000`). -/
def exReviewFuture : CardReviewData :=
  { exReviewCard with cardId := "f", nextReview := 2000 }

/-- A concrete fresh New-state card, due at its creation time `0`. -/
def exNewCard : CardReviewData := createNewCardData defaultSettings "n" 0

/-- A concrete buried record. -/
def exBuriedCard : CardReviewData := { exReviewCard with buried := true }

/-- A concrete Relearning-state record. -/
def exRelearningCard : CardReviewData :=
  { exReviewCard with difficulty := .relearning, lapses := 1 }

/-- A two-card schedule map: a due New card and a not-yet-due Review
card. -/
def exSortMap : ReviewMap := [("n", exNewCard), ("f", exReviewFuture)]

/-- A concrete New-state card scheduled in the future (timestamp
`5000`). -/
def exNewFuture : CardReviewData :=
  { exNewCard with cardId := "n2", nextReview := 5000 }

/-- A two-card schedule map: a not-yet-due New card and a due Review
card. -/
def exSortMap2 : ReviewMap := [("n2", exNewFuture), ("r", exReviewCard)]

/-- Twenty-one candidate card identifiers. -/
def exIds21 : List String :=
  ["c01", "c02", "c03", "c04", "c05", "c06", "c07", "c08", "c09", "c10",
   "c11", "c12", "c13", "c14", "c15", "c16", "c17", "c18", "c19", "c20",
   "c21"]

end Anki

namespace SM2

/-- The difficulty stages of the SM-2 variant (`spaced-repetition.ts`):
only `new`, `learning` and `review` occur. -/
inductive Stage where
  | new
  | learning
  | review
deriving DecidableEq, Repr

/-- The card record of the SM-2 variant. -/
structure CardReviewData where
  cardId : String
  easeFactor : ℚ
  interval : ℚ
  repetitions : ℕ
  nextReview : ℚ
  lastReviewed : ℚ
  totalReviews : ℕ
  correctStreak : ℕ
  difficulty : Stage
deriving DecidableEq, Repr

/-- The settings fields the SM-2 variant reads. -/
structure Settings where
  initialEaseFactor : ℚ
  minimumEaseFactor : ℚ
  maximumInterval : ℚ
  easeBonus : ℚ
  hardPenalty : ℚ
  againPenalty : ℚ
  graduatingInterval : ℚ
  easyInterval : ℚ
deriving DecidableEq, Repr

/-- Embeds `handleCorrectAnswer` of the SM-2 variant (quality ≥ 3): advance the
stage/interval, then apply the ease change with the
`minimumEaseFactor || 1.3` floor. -/
def handleCorrectAnswer (s : Settings) (d : CardReviewData) (quality : ℚ) :
    CardReviewData :=
  let d := { d with
    correctStreak := d.correctStreak + 1
    repetitions := d.repetitions + 1 }
  let d :=
    if d.difficulty = .new then
      { d with difficulty := Stage.learning, interval := orQ s.graduatingInterval 1 }
    else if d.difficulty = .learning ∧ 2 ≤ d.repetitions then
      { d with difficulty := Stage.review, interval := orQ s.easyInterval 4 }
    else if d.difficulty = .review then
      { d with
        interval :=
          min ((Rat.ceil (d.interval * d.easeFactor) : ℤ) : ℚ) (orQ s.maximumInterval 365) }
    else
      { d with interval := min (d.interval + 1) (orQ s.easyInterval 4) }
  let easeChange : ℚ :=
    if quality = 5 then orQ s.easeBonus (3/20)
    else if quality = 4 then orQ s.easeBonus (3/20) * (1/2)
    else if quality = 3 then -(orQ s.hardPenalty (3/20))
    else 0
  { d with
    easeFactor := max (orQ s.minimumEaseFactor (13/10)) (d.easeFactor + easeChange) }

/-- Embeds `handleIncorrectAnswer` of the SM-2 variant (quality < 3): reset the
card, with the same `minimumEaseFactor || 1.3` floor on the ease. -/
def handleIncorrectAnswer (s : Settings) (d : CardReviewData) :
    CardReviewData :=
  { d with
    correctStreak := 0
    repetitions := 0
    difficulty := Stage.learning
    interval := orQ s.graduatingInterval 1
    easeFactor := max (orQ s.minimumEaseFactor (13/10))
      (d.easeFactor - orQ s.againPenalty (1/5)) }

/-- Embeds `scheduleNextReview` of the SM-2 variant. -/
def scheduleNextReview (d : CardReviewData) (now : ℚ) : CardReviewData :=
  { d with nextReview := now + d.interval * (24 * 60 * 60 * 1000) }

/-- The per-record effect of `reviewCard` in the SM-2 variant, for a raw
quality score `q` (clamped to `[0, 5]` first). -/
def reviewCardData (s : Settings) (d : CardReviewData) (q : ℚ) (now : ℚ) :
    CardReviewData :=
  let d := { d with lastReviewed := now, totalReviews := d.totalReviews + 1 }
  let quality := max 0 (min 5 q)
  let d :=
    if 3 ≤ quality then handleCorrectAnswer s d quality
    else handleIncorrectAnswer s d
  scheduleNextReview d now

/-- A review session step: one `(quality, now)` pair applied through
`reviewCardData`. -/
def reviewStep (s : Settings) (d : CardReviewData) (r : ℚ × ℚ) :
    CardReviewData :=
  reviewCardData s d r.1 r.2

end SM2

/-! ## Theorems -/

/-- Helper: `orQ` never goes below its first argument when the fallback is
nonnegative. -/
theorem le_orQ (x c : ℚ) (h : 0 ≤ c) : x ≤ orQ x c := by
  unfold orQ
  split_ifs with hx
  · rw [hx]; exact h
  · exact le_refl x

namespace SM2

/-- Both answer handlers of the SM-2 variant end by clamping the ease
factor at `minimumEaseFactor || 1.3`, so one review step never leaves
the ease factor below the configured minimum. -/
theorem easeFactor_floor_step (s : Settings) (d : CardReviewData) (q now : ℚ) :
    s.minimumEaseFactor ≤ (reviewCardData s d q now).easeFactor := by
  have hfloor : s.minimumEaseFactor ≤ orQ s.minimumEaseFactor (13/10) :=
    le_orQ _ _ (by norm_num)
  unfold reviewCardData scheduleNextReview handleCorrectAnswer handleIncorrectAnswer
  dsimp only
  split_ifs <;> dsimp only <;> exact le_trans hfloor (le_max_left _ _)

/-- Claim C1: for every card and every sequence of review outcomes
applied via `reviewCard` of the SM-2 scheduler (each outcome a
`(quality, now)` pair, the sequence nonempty because it is written
`rs ++ [r]`), the card's ease factor after each review is at least the
configured `minimumEaseFactor`, for every configuration. -/
theorem reviewCard_easeFactor_never_below_minimum (s : Settings)
    (d0 : CardReviewData) (rs : List (ℚ × ℚ)) (r : ℚ × ℚ) :
    s.minimumEaseFactor ≤ ((rs ++ [r]).foldl (reviewStep s) d0).easeFactor := by
  rw [List.foldl_append]
  exact easeFactor_floor_step s _ r.1 r.2

end SM2

namespace Anki

/-- Claim C4, counterexample: under the default configuration, a fresh
New-state card reviewed with [Good, Good] is still in the Learning
state (on the second learning step, interval still `0`), not in Review
with interval `1` as claimed. -/
theorem new_card_good_good_still_learning :
    ([Quality.good, Quality.good].foldl
        (fun d q => reviewCardData defaultSettings d q 0)
        (createNewCardData defaultSettings "c" 0)).difficulty =
      Difficulty.learning ∧
    ([Quality.good, Quality.good].foldl
        (fun d q => reviewCardData defaultSettings d q 0)
        (createNewCardData defaultSettings "c" 0)).difficulty ≠
      Difficulty.review ∧
    ([Quality.good, Quality.good].foldl
        (fun d q => reviewCardData defaultSettings d q 0)
        (createNewCardData defaultSettings "c" 0)).interval = 0 := by
  refine ⟨by decide, by decide, by decide⟩

/-- Claim C4, amended: under the default configuration (learning steps
[1, 10] minutes, graduating interval 1 day), the outcome sequence
[Good, Good] leaves a fresh New-state card in state Learning at step 1;
one further Good graduates it, so [Good, Good, Good] ends in state
Review with `intervalDays = 1`. -/
theorem new_card_three_goods_graduate :
    ([Quality.good, Quality.good].foldl
        (fun d q => reviewCardData defaultSettings d q 0)
        (createNewCardData defaultSettings "c" 0)).currentStep = 1 ∧
    ([Quality.good, Quality.good, Quality.good].foldl
        (fun d q => reviewCardData defaultSettings d q 0)
        (createNewCardData defaultSettings "c" 0)).difficulty =
      Difficulty.review ∧
    ([Quality.good, Quality.good, Quality.good].foldl
        (fun d q => reviewCardData defaultSettings d q 0)
        (createNewCardData defaultSettings "c" 0)).interval = 1 := by
  refine ⟨by decide, by decide, by decide⟩

/-- Claim C6: evaluation at the failing input.  Exporting a scheduler
state holding one Relearning-state record and importing it back yields
a record whose `difficulty` is `new`: `loadData` pipes the stored
difficulty through `migrateDifficulty`, whose `switch` lacks a
`'relearning'` case, so the state is not preserved by the snapshot
round trip. -/
theorem snapshot_round_trip_drops_relearning :
    exRelearningCard.difficulty = Difficulty.relearning ∧
    (mapLookup (loadData (exportData [("x", exRelearningCard)])) "x").map
        (fun d => d.difficulty) = some Difficulty.new := by
  refine ⟨by decide, by decide⟩

/-- Claim C7, counterexample: an author consisting only of spaces does
not raise the error — `generateCardId` tests `!title || !author ||
!content` on the untrimmed strings, and `" "` is truthy, so an
identifier is returned. -/
theorem generateCardId_space_author_succeeds :
    (generateCardId "a" " " "b").isSome = true := by decide

/-- Claim C7, amended: `generateCardId` raises its error if and only if
at least one of title, author, or content is the empty string, checked
before any trimming; inputs that are nonempty but consist only of
whitespace still produce an identifier. -/
theorem generateCardId_error_iff_empty (title author content : String) :
    (generateCardId title author content).isSome = true ↔
      ¬(title = "" ∨ author = "" ∨ content = "") := by
  unfold generateCardId
  split_ifs with h <;> simp [h]

/-- Claim C2: evaluation at the failing input.  With
`minimumInterval = 2` (all other knobs default, so
`1 ≤ minimumInterval ≤ maximumInterval`), a Review-state card with a
one-day interval answered Again ends with `intervalDays = 1`, below the
configured minimum: `handleReviewCard` caps at `maximumInterval` but
never consults `settings.minimumInterval`. -/
theorem reviewCard_interval_below_minimumInterval :
    (1 : ℚ) ≤ exSettingsMin2.minimumInterval ∧
    exSettingsMin2.minimumInterval ≤ exSettingsMin2.maximumInterval ∧
    exReviewCard.difficulty = Difficulty.review ∧
    (reviewCardData exSettingsMin2 exReviewCard Quality.again 0).interval = 1 ∧
    ¬ exSettingsMin2.minimumInterval ≤
        (reviewCardData exSettingsMin2 exReviewCard Quality.again 0).interval := by
  refine ⟨by norm_num [exSettingsMin2, defaultSettings], ?_, by decide, ?_, ?_⟩ <;>
    norm_num [reviewCardData, handleReviewCard, scheduleInLearning,
      learningStepMinutes, exSettingsMin2, exReviewCard, createNewCardData,
      defaultSettings, orQ, orN, Rat.floor_def']

/-- Lookup after `mapSet`. -/
theorem mapLookup_mapSet (m : ReviewMap) (k j : String) (v : CardReviewData) :
    mapLookup (mapSet m k v) j = if j = k then some v else mapLookup m j := by
  induction m with
  | nil =>
      simp only [mapSet, mapLookup]
      by_cases h : k = j
      · subst h; simp
      · rw [if_neg h, if_neg (fun hh => h hh.symm)]
  | cons kv t ih =>
      obtain ⟨k1, v1⟩ := kv
      simp only [mapSet]
      by_cases h1 : k1 = k
      · subst h1
        simp only [if_pos rfl, mapLookup]
        by_cases h2 : k1 = j
        · subst h2; simp
        · rw [if_neg h2, if_neg (fun hh => h2 hh.symm), if_neg h2]
      · rw [if_neg h1]
        simp only [mapLookup]
        by_cases h2 : k1 = j
        · subst h2
          rw [if_pos rfl, if_neg h1, if_pos rfl]
        · rw [if_neg h2, if_neg h2, ih]

/-- Lemma: `getCardData` returns the materialised record. -/
theorem getCardData_fst (s : KindleCardsSettings) (m : ReviewMap) (k : String)
    (now : ℚ) : (getCardData s m k now).1 = matRec s m now k := by
  unfold getCardData matRec
  cases h : mapLookup m k <;> simp [h]

/-- Lemma: `getCardData` does not change any materialised record. -/
theorem matRec_getCardData_snd (s : KindleCardsSettings) (m : ReviewMap)
    (k : String) (now : ℚ) (j : String) :
    matRec s (getCardData s m k now).2 now j = matRec s m now j := by
  unfold getCardData
  cases h : mapLookup m k with
  | some d => simp
  | none =>
      simp only
      unfold matRec
      rw [mapLookup_mapSet]
      by_cases hj : j = k
      · subst hj; rw [if_pos rfl, h]; simp
      · rw [if_neg hj]

/-- Lemma: `getCardData` preserves every stored record. -/
theorem mapLookup_getCardData_snd (s : KindleCardsSettings) (m : ReviewMap)
    (k : String) (now : ℚ) (j : String) (r : CardReviewData)
    (h : mapLookup m j = some r) :
    mapLookup (getCardData s m k now).2 j = some r := by
  unfold getCardData
  cases hk : mapLookup m k with
  | some d => simpa using h
  | none =>
      simp only
      rw [mapLookup_mapSet]
      by_cases hj : j = k
      · subst hj; rw [hk] at h; cases h
      · rw [if_neg hj]; exact h

/-- The ids kept by `filterCards` are precisely the candidate ids whose
materialised record satisfies the predicate. -/
theorem filterCards_fst (s : KindleCardsSettings) (p : CardReviewData → Bool)
    (ids : List String) : ∀ (m : ReviewMap) (now : ℚ),
    (filterCards s p m ids now).1 = ids.filter (fun k => p (matRec s m now k)) := by
  induction ids with
  | nil => intro m now; rfl
  | cons k rest ih =>
      intro m now
      simp only [filterCards]
      rw [List.filter_cons, getCardData_fst, ih (getCardData s m k now).2 now,
        List.filter_congr (fun j _ => by rw [matRec_getCardData_snd])]

/-- Lemma: `filterCards` does not change any materialised record. -/
theorem matRec_filterCards_snd (s : KindleCardsSettings)
    (p : CardReviewData → Bool) (ids : List String) :
    ∀ (m : ReviewMap) (now : ℚ) (j : String),
    matRec s (filterCards s p m ids now).2 now j = matRec s m now j := by
  induction ids with
  | nil => intro m now j; rfl
  | cons k rest ih =>
      intro m now j
      simp only [filterCards]
      rw [ih (getCardData s m k now).2 now j, matRec_getCardData_snd]

/-- Lemma: `filterCards` preserves every stored record. -/
theorem mapLookup_filterCards_snd (s : KindleCardsSettings)
    (p : CardReviewData → Bool) (ids : List String) :
    ∀ (m : ReviewMap) (now : ℚ) (j : String) (r : CardReviewData),
    mapLookup m j = some r → mapLookup (filterCards s p m ids now).2 j = some r := by
  induction ids with
  | nil => intro m now j r h; exact h
  | cons k rest ih =>
      intro m now j r h
      simp only [filterCards]
      exact ih (getCardData s m k now).2 now j r
        (mapLookup_getCardData_snd s m k now j r h)

/-- Lemma: `ensureAll` preserves every stored record. -/
theorem mapLookup_ensureAll (s : KindleCardsSettings) (ids : List String) :
    ∀ (m : ReviewMap) (now : ℚ) (j : String) (r : CardReviewData),
    mapLookup m j = some r → mapLookup (ensureAll s m ids now) j = some r := by
  induction ids with
  | nil => intro m now j r h; exact h
  | cons k rest ih =>
      intro m now j r h
      unfold ensureAll
      rw [List.foldl_cons]
      exact ih _ now j r (mapLookup_getCardData_snd s m k now j r h)

/-- Lemma: `statsLoop` preserves every stored record. -/
theorem mapLookup_statsLoop_snd (s : KindleCardsSettings) (ids : List String) :
    ∀ (m : ReviewMap) (now : ℚ) (j : String) (r : CardReviewData),
    mapLookup m j = some r → mapLookup (statsLoop s m ids now).2 j = some r := by
  induction ids with
  | nil => intro m now j r h; exact h
  | cons k rest ih =>
      intro m now j r h
      simp only [statsLoop]
      exact ih (getCardData s m k now).2 now j r
        (mapLookup_getCardData_snd s m k now j r h)

/-- A buried record can never pass a `filterCards` predicate that
requires `!d.buried`. -/
theorem not_mem_filterCards_of_buried (s : KindleCardsSettings)
    (p : CardReviewData → Bool) (hp : ∀ d, d.buried = true → p d = false)
    (m : ReviewMap) (ids : List String) (now : ℚ) (k : String)
    (d : CardReviewData) (hmat : matRec s m now k = d) (hbur : d.buried = true) :
    k ∉ (filterCards s p m ids now).1 := by
  intro hmem
  rw [filterCards_fst] at hmem
  have hkeep := (List.mem_filter.mp hmem).2
  rw [hmat, hp d hbur] at hkeep
  cases hkeep

/-- Claim C3: when a review pushes a card's lapse count to the
configured `leechThreshold` (or beyond), the card comes out of
`reviewCard` with `buried = true`; and a buried record is excluded from
every `getDueCards`, `getNewCards` and `getStudyCards` result,
whatever its `nextReviewAt`, as long as the stored record remains
buried. -/
theorem leech_buried_and_excluded_from_queries :
    (∀ (s : KindleCardsSettings) (d : CardReviewData) (q : Quality) (now : ℚ),
      1 ≤ s.leechThreshold →
      s.leechThreshold ≤ (reviewCardData s d q now).lapses →
      (reviewCardData s d q now).buried = true) ∧
    (∀ (s : KindleCardsSettings) (m : ReviewMap) (ids : List String) (now : ℚ)
      (k : String) (d : CardReviewData),
      mapLookup m k = some d → d.buried = true →
      k ∉ (getDueCards s m ids now).1 ∧ k ∉ (getNewCards s m ids now).1 ∧
        k ∉ (getStudyCards s m ids now).1) := by
  constructor
  · intro s d q now hT hlap
    simp only [reviewCardData] at hlap ⊢
    split_ifs at hlap ⊢ with hc
    · rfl
    · exfalso
      unfold orN at hc
      rw [if_neg (by omega)] at hc
      omega
  · intro s m ids now k d hlook hbur
    have hmat : matRec s m now k = d := by unfold matRec; rw [hlook]; rfl
    have hdue : k ∉ (filterCards s
        (fun d => !d.buried && decide (d.nextReview ≤ now)) m ids now).1 :=
      not_mem_filterCards_of_buried s _ (fun d hd => by simp [hd]) m ids now k d
        hmat hbur
    have hnew : k ∉ (filterCards s
        (fun d => !d.buried && decide (d.difficulty = .new)) m ids now).1 :=
      not_mem_filterCards_of_buried s _ (fun d hd => by simp [hd]) m ids now k d
        hmat hbur
    refine ⟨?_, ?_, ?_⟩
    · simp only [getDueCards]
      split_ifs with hcap
      · intro hmem; exact hdue (List.take_subset _ _ hmem)
      · exact hdue
    · simp only [getNewCards]
      intro hmem
      exact hnew (List.take_subset _ _ hmem)
    · simp only [getStudyCards]
      have hstudy : k ∉ (filterCards s
          (fun d => !d.buried && decide (d.nextReview ≤ now) &&
            (decide (d.difficulty = .learning) || decide (d.difficulty = .relearning) ||
              decide (d.difficulty = .review))) m ids now).1 :=
        not_mem_filterCards_of_buried s _ (fun d hd => by simp [hd]) m ids now k d
          hmat hbur
      have hmat2 : matRec s (filterCards s
          (fun d => !d.buried && decide (d.nextReview ≤ now) &&
            (decide (d.difficulty = .learning) || decide (d.difficulty = .relearning) ||
              decide (d.difficulty = .review))) m ids now).2 now k = d := by
        rw [matRec_filterCards_snd, hmat]
      have hnew2 : k ∉ (getNewCards s (filterCards s
          (fun d => !d.buried && decide (d.nextReview ≤ now) &&
            (decide (d.difficulty = .learning) || decide (d.difficulty = .relearning) ||
              decide (d.difficulty = .review))) m ids now).2 ids now).1 := by
        simp only [getNewCards]
        intro hmem
        exact not_mem_filterCards_of_buried s _ (fun d hd => by simp [hd]) _ ids now
          k d hmat2 hbur (List.take_subset _ _ hmem)
      have happ : k ∉ (filterCards s
          (fun d => !d.buried && decide (d.nextReview ≤ now) &&
            (decide (d.difficulty = .learning) || decide (d.difficulty = .relearning) ||
              decide (d.difficulty = .review))) m ids now).1 ++
          (getNewCards s (filterCards s
            (fun d => !d.buried && decide (d.nextReview ≤ now) &&
              (decide (d.difficulty = .learning) || decide (d.difficulty = .relearning) ||
                decide (d.difficulty = .review))) m ids now).2 ids now).1 := by
        intro hmem
        rcases List.mem_append.mp hmem with h1 | h2
        · exact hstudy h1
        · exact hnew2 h2
      split_ifs with hcap
      · intro hmem; exact happ (List.take_subset _ _ hmem)
      · exact happ

/-- Witness for the leech-burial claim: with `leechThreshold = 1`, one
Again on a Review-state card buries it, and a buried record never
appears in the three study queries. -/
theorem leech_buried_and_excluded_from_queries_witness :
    (reviewCardData exSettingsLeech1 exReviewCard Quality.again 0).buried = true ∧
    ("r" ∉ (getDueCards defaultSettings [("r", exBuriedCard)] ["r"] 0).1 ∧
      "r" ∉ (getNewCards defaultSettings [("r", exBuriedCard)] ["r"] 0).1 ∧
      "r" ∉ (getStudyCards defaultSettings [("r", exBuriedCard)] ["r"] 0).1) :=
  ⟨leech_buried_and_excluded_from_queries.1 exSettingsLeech1 exReviewCard
      Quality.again 0 (by decide) (by decide),
    leech_buried_and_excluded_from_queries.2 defaultSettings
      [("r", exBuriedCard)] ["r"] 0 "r" exBuriedCard rfl rfl⟩

/-- The `due` counter moves only for non-buried learning, relearning
and review records whose `nextReview` has passed. -/
theorem statsBump_due (d : CardReviewData) (now : ℚ) (acc : StatsAcc) :
    (statsBump d now acc).due = acc.due +
      (if (!d.buried &&
          (decide (d.difficulty = .learning) || decide (d.difficulty = .relearning) ||
            decide (d.difficulty = .review)) &&
          decide (d.nextReview ≤ now)) = true then 1 else 0) := by
  unfold statsBump
  cases hB : d.buried <;> cases hd : d.difficulty <;>
    by_cases hn : d.nextReview ≤ now <;> simp [hB, hd, hn]

/-- The `due` counter of the stats loop counts the candidate ids whose
materialised record is a non-buried learning/relearning/review record
that is due. -/
theorem statsLoop_due (s : KindleCardsSettings) (ids : List String) :
    ∀ (m : ReviewMap) (now : ℚ),
    (statsLoop s m ids now).1.due = ids.countP (fun k =>
      !(matRec s m now k).buried &&
      (decide ((matRec s m now k).difficulty = .learning) ||
        decide ((matRec s m now k).difficulty = .relearning) ||
        decide ((matRec s m now k).difficulty = .review)) &&
      decide ((matRec s m now k).nextReview ≤ now)) := by
  induction ids with
  | nil => intro m now; rfl
  | cons k rest ih =>
      intro m now
      simp only [statsLoop]
      rw [List.countP_cons, statsBump_due, getCardData_fst,
        ih (getCardData s m k now).2 now,
        List.countP_congr (fun j _ => by rw [matRec_getCardData_snd])]

/-- Claim C8, amended: the `due` count of `getStats` equals the number
of non-buried candidate cards in state Learning, Relearning or Review
whose `nextReviewAt ≤ now`; New-state cards are never counted, even
when due. -/
theorem getStats_due_count (s : KindleCardsSettings) (m : ReviewMap)
    (ids : List String) (now : ℚ) :
    ((getStats s m ids now).1).due = ids.countP (fun k =>
      !(matRec s m now k).buried &&
      (decide ((matRec s m now k).difficulty = .learning) ||
        decide ((matRec s m now k).difficulty = .relearning) ||
        decide ((matRec s m now k).difficulty = .review)) &&
      decide ((matRec s m now k).nextReview ≤ now)) := by
  simp only [getStats]
  exact statsLoop_due s ids m now

/-- Claim C8, counterexample: a freshly materialised New-state card is
non-buried and due (`nextReviewAt = now`), yet `getStats` reports a
`due` count of `0` — `due` is not counted regardless of state. -/
theorem getStats_due_ignores_new_cards :
    ((getStats defaultSettings [] ["x"] 0).1).due = 0 ∧
    (matRec defaultSettings [] 0 "x").buried = false ∧
    (matRec defaultSettings [] 0 "x").nextReview ≤ 0 := by
  refine ⟨by decide, by decide, ?_⟩
  norm_num [matRec, mapLookup, createNewCardData]

/-- Claim C9, counterexample: calling `getDueCards` with a candidate id
that has no stored record grows the schedule map — `getCardData`
lazily inserts a fresh New-state record, so the query is not
read-only. -/
theorem getDueCards_inserts_missing_records :
    (getDueCards defaultSettings [] ["x"] 0).2 ≠ ([] : ReviewMap) := by
  decide

/-- Claim C9, amended: `dueCards`, `sortedByPriority` and `stats` never
modify or remove a record that is already stored; they only insert
fresh New-state records for candidate ids that are missing from the
map. -/
theorem queries_preserve_stored_records (s : KindleCardsSettings)
    (m : ReviewMap) (ids : List String) (now : ℚ) (k : String)
    (d : CardReviewData) (h : mapLookup m k = some d) :
    mapLookup (getDueCards s m ids now).2 k = some d ∧
    mapLookup (getSortedCards s m ids now).2 k = some d ∧
    mapLookup (getStats s m ids now).2 k = some d := by
  refine ⟨?_, ?_, ?_⟩
  · simp only [getDueCards]
    exact mapLookup_filterCards_snd s _ ids m now k d h
  · simp only [getSortedCards]
    exact mapLookup_ensureAll s ids m now k d h
  · simp only [getStats]
    exact mapLookup_statsLoop_snd s ids m now k d h

/-- Witness for the query-preservation claim at a concrete stored
record. -/
theorem queries_preserve_stored_records_witness :
    mapLookup (getDueCards defaultSettings [("r", exReviewCard)] ["r", "z"] 0).2
        "r" = some exReviewCard ∧
    mapLookup (getSortedCards defaultSettings [("r", exReviewCard)] ["r", "z"] 0).2
        "r" = some exReviewCard ∧
    mapLookup (getStats defaultSettings [("r", exReviewCard)] ["r", "z"] 0).2
        "r" = some exReviewCard :=
  queries_preserve_stored_records defaultSettings [("r", exReviewCard)]
    ["r", "z"] 0 "r" exReviewCard rfl

/-- Claim C10: with `newCardsPerDay = 0` the cap silently falls back to
the default of `20` (`newCardsPerDay || 20`), so `getNewCards` returns
the first 20 non-buried New-state candidates — exactly 20 of them when
more than 20 qualify — while `getDueCards` with
`maximumReviewsPerDay = 0` is unlimited. -/
theorem getNewCards_zero_cap_defaults_to_twenty (s : KindleCardsSettings)
    (m : ReviewMap) (ids : List String) (now : ℚ)
    (h0 : s.newCardsPerDay = 0) :
    (getNewCards s m ids now).1 =
      (ids.filter (fun k => !(matRec s m now k).buried &&
        decide ((matRec s m now k).difficulty = .new))).take 20 ∧
    (20 < (ids.filter (fun k => !(matRec s m now k).buried &&
        decide ((matRec s m now k).difficulty = .new))).length →
      (getNewCards s m ids now).1.length = 20) ∧
    (s.maximumReviewsPerDay = 0 →
      (getDueCards s m ids now).1 =
        ids.filter (fun k => !(matRec s m now k).buried &&
          decide ((matRec s m now k).nextReview ≤ now))) := by
  have hfst : (getNewCards s m ids now).1 =
      (ids.filter (fun k => !(matRec s m now k).buried &&
        decide ((matRec s m now k).difficulty = .new))).take 20 := by
    simp only [getNewCards]
    rw [filterCards_fst, h0]
    rfl
  refine ⟨hfst, ?_, ?_⟩
  · intro h20
    rw [hfst, List.length_take]
    omega
  · intro hmr
    simp only [getDueCards]
    rw [hmr]
    simp only [orN, if_pos rfl, lt_irrefl, if_false]
    exact filterCards_fst s _ ids m now

/-- Witness for the zero-cap claim: 21 fresh New-state candidates yield
exactly 20 new cards, while `getDueCards` returns all 21. -/
theorem getNewCards_zero_cap_defaults_to_twenty_witness :
    (getNewCards defaultSettings [] exIds21 0).1.length = 20 ∧
    (getDueCards defaultSettings [] exIds21 0).1 =
      exIds21.filter (fun k => !(matRec defaultSettings [] 0 k).buried &&
        decide ((matRec defaultSettings [] 0 k).nextReview ≤ 0)) :=
  ⟨(getNewCards_zero_cap_defaults_to_twenty defaultSettings [] exIds21 0
      rfl).2.1 (by decide),
    (getNewCards_zero_cap_defaults_to_twenty defaultSettings [] exIds21 0
      rfl).2.2 rfl⟩

set_option maxHeartbeats 1600000 in
/-- Lemma: `comparePriority a b now ≤ 0` is the lexicographic order on
`(tier1, tier2, tier3)`. -/
theorem comparePriority_le_iff (a b : CardReviewData) (now : ℚ) :
    comparePriority a b now ≤ 0 ↔ keyLe now a b := by
  unfold comparePriority keyLe tier1 tier2 tier3
  by_cases hab : a.buried = true <;> by_cases hbb : b.buried = true <;>
    by_cases hla : a.difficulty = .learning ∨ a.difficulty = .relearning <;>
    by_cases hlb : b.difficulty = .learning ∨ b.difficulty = .relearning <;>
    by_cases hda : a.nextReview ≤ now <;> by_cases hdb : b.nextReview ≤ now <;>
    by_cases hna : a.difficulty = .new <;> by_cases hnb : b.difficulty = .new <;>
    (try rcases hla with h1 | h1) <;> (try rcases hlb with h2 | h2) <;>
    simp_all only [sub_nonpos, eq_self_iff_true, not_true, not_false_iff, true_and,
      and_true, false_and, and_false, true_or, or_true, false_or, or_false, not_or,
      if_true, if_false, ite_true, ite_false, reduceCtorEq, ne_eq,
      Bool.not_eq_true, iff_true, iff_false, true_iff, false_iff, not_not,
      not_false_eq_true, not_true_eq_false] <;>
    norm_num

/-- The lexicographic order `keyLe` is transitive. -/
theorem keyLe_trans (now : ℚ) (a b c : CardReviewData) (h1 : keyLe now a b)
    (h2 : keyLe now b c) : keyLe now a c := by
  unfold keyLe at h1 h2 ⊢
  rcases h1 with h1 | ⟨e1, h1⟩ <;> rcases h2 with h2 | ⟨e2, h2⟩
  · left; linarith
  · left; linarith
  · left; linarith
  · right
    refine ⟨by linarith, ?_⟩
    rcases h1 with h1 | ⟨f1, h1⟩ <;> rcases h2 with h2 | ⟨f2, h2⟩
    · left; linarith
    · left; linarith
    · left; linarith
    · right; exact ⟨by linarith, by linarith⟩

/-- The lexicographic order `keyLe` is total. -/
theorem keyLe_total (now : ℚ) (a b : CardReviewData) :
    keyLe now a b ∨ keyLe now b a := by
  unfold keyLe
  rcases lt_trichotomy (tier1 a) (tier1 b) with h | h | h
  · exact Or.inl (Or.inl h)
  · rcases lt_trichotomy (tier2 now a) (tier2 now b) with h3 | h3 | h3
    · exact Or.inl (Or.inr ⟨h, Or.inl h3⟩)
    · rcases le_total (tier3 now a) (tier3 now b) with h4 | h4
      · exact Or.inl (Or.inr ⟨h, Or.inr ⟨h3, h4⟩⟩)
      · exact Or.inr (Or.inr ⟨h.symm, Or.inr ⟨h3.symm, h4⟩⟩)
    · exact Or.inr (Or.inr ⟨h.symm, Or.inl h3⟩)
  · exact Or.inr (Or.inl h)

/-- The sort relation of `getSortedCards` is transitive, so the
comparator defines a total preorder on ids. -/
theorem sortRel_trans (s : KindleCardsSettings) (m : ReviewMap) (now : ℚ)
    (a b c : String) (h1 : sortRel s m now a b) (h2 : sortRel s m now b c) :
    sortRel s m now a c := by
  unfold sortRel at h1 h2 ⊢
  rw [comparePriority_le_iff] at h1 h2 ⊢
  exact keyLe_trans now _ _ _ h1 h2

/-- The sort relation of `getSortedCards` is total. -/
theorem sortRel_total (s : KindleCardsSettings) (m : ReviewMap) (now : ℚ)
    (a b : String) : sortRel s m now a b ∨ sortRel s m now b a := by
  unfold sortRel
  rw [comparePriority_le_iff, comparePriority_le_iff]
  exact keyLe_total now _ _

/-- Claim C5, amended: in the output of `getSortedCards`, every
non-buried New-state card that is NOT due is ordered after every
non-buried Review-state card (due New cards are instead ordered by the
due-card rules, ahead of not-yet-due Review cards): if position `i`
holds a non-buried, not-due New card and position `j` a non-buried
Review card, then `j < i`. -/
theorem getSortedCards_new_after_review (s : KindleCardsSettings) (m : ReviewMap)
    (ids : List String) (now : ℚ) (i j : ℕ)
    (hi : i < ((getSortedCards s m ids now).1).length)
    (hj : j < ((getSortedCards s m ids now).1).length)
    (hPn : (matRec s (ensureAll s m ids now) now
        (((getSortedCards s m ids now).1).get ⟨i, hi⟩)).difficulty = Difficulty.new)
    (hPb : (matRec s (ensureAll s m ids now) now
        (((getSortedCards s m ids now).1).get ⟨i, hi⟩)).buried = false)
    (hPf : ¬ (matRec s (ensureAll s m ids now) now
        (((getSortedCards s m ids now).1).get ⟨i, hi⟩)).nextReview ≤ now)
    (hQr : (matRec s (ensureAll s m ids now) now
        (((getSortedCards s m ids now).1).get ⟨j, hj⟩)).difficulty = Difficulty.review)
    (hQb : (matRec s (ensureAll s m ids now) now
        (((getSortedCards s m ids now).1).get ⟨j, hj⟩)).buried = false) :
    j < i := by
  by_contra hcon
  push_neg at hcon
  rcases eq_or_lt_of_le hcon with heq | hlt
  · subst heq
    rw [show (⟨i, hi⟩ : Fin ((getSortedCards s m ids now).1).length) = ⟨i, hj⟩ from rfl]
      at hPn
    rw [hPn] at hQr
    cases hQr
  · haveI : IsTotal String (sortRel s (ensureAll s m ids now) now) :=
      ⟨sortRel_total s (ensureAll s m ids now) now⟩
    haveI : IsTrans String (sortRel s (ensureAll s m ids now) now) :=
      ⟨sortRel_trans s (ensureAll s m ids now) now⟩
    have hsorted : List.Pairwise (sortRel s (ensureAll s m ids now) now)
        ((getSortedCards s m ids now).1) :=
      List.sorted_insertionSort (sortRel s (ensureAll s m ids now) now) ids
    have hrel := List.pairwise_iff_getElem.mp hsorted i j hi hj hlt
    simp only [List.get_eq_getElem] at hPn hPb hPf hQr hQb
    unfold sortRel at hrel
    rw [comparePriority_le_iff] at hrel
    unfold keyLe tier1 tier2 tier3 at hrel
    by_cases hbd : (matRec s (ensureAll s m ids now) now
        (((getSortedCards s m ids now).1)[j])).nextReview ≤ now <;>
      simp only [hPn, hPb, hPf, hQr, hQb, hbd, reduceCtorEq, false_or, or_false,
        if_true, if_false, ite_true, ite_false, eq_self_iff_true, true_and,
        not_false_eq_true, iff_false, false_and, and_false, or_self] at hrel <;>
      norm_num at hrel

/-- Claim C5, counterexample: a due, non-buried New-state card sorts
BEFORE a not-yet-due, non-buried Review-state card (the due-card rules
fire before the "new cards last" rule, and a fresh New card is due the
moment it is created), so New cards do not sort after all Review
cards. -/
theorem getSortedCards_due_new_before_review :
    (getSortedCards defaultSettings exSortMap ["f", "n"] 1000).1 = ["n", "f"] ∧
    (matRec defaultSettings exSortMap 1000 "n").difficulty = Difficulty.new ∧
    (matRec defaultSettings exSortMap 1000 "n").buried = false ∧
    (matRec defaultSettings exSortMap 1000 "f").difficulty = Difficulty.review ∧
    (matRec defaultSettings exSortMap 1000 "f").buried = false := by
  refine ⟨?_, rfl, rfl, rfl, rfl⟩
  simp [getSortedCards, ensureAll, getCardData, mapLookup, List.foldl,
    List.insertionSort, List.orderedInsert, sortRel, comparePriority, matRec,
    exSortMap, exNewCard, exReviewFuture, exReviewCard, createNewCardData,
    defaultSettings, orQ]
  norm_num

/-- Witness for the amended sorting claim on a concrete two-card state:
the Review card lands at position 0, the not-due New card at
position 1. -/
theorem getSortedCards_new_after_review_witness : (0 : ℕ) < 1 :=
  getSortedCards_new_after_review defaultSettings exSortMap2 ["n2", "r"] 1000 1 0
    (by simp only [getSortedCards]
        rw [List.length_insertionSort]
        simp)
    (by simp only [getSortedCards]
        rw [List.length_insertionSort]
        simp)
    (by simp [getSortedCards, ensureAll, getCardData, mapLookup, List.foldl,
          List.insertionSort, List.orderedInsert, sortRel, comparePriority, matRec,
          exSortMap2, exNewFuture, exNewCard, exReviewCard, createNewCardData,
          defaultSettings, orQ, List.get])
    (by simp [getSortedCards, ensureAll, getCardData, mapLookup, List.foldl,
          List.insertionSort, List.orderedInsert, sortRel, comparePriority, matRec,
          exSortMap2, exNewFuture, exNewCard, exReviewCard, createNewCardData,
          defaultSettings, orQ, List.get])
    (by simp [getSortedCards, ensureAll, getCardData, mapLookup, List.foldl,
          List.insertionSort, List.orderedInsert, sortRel, comparePriority, matRec,
          exSortMap2, exNewFuture, exNewCard, exReviewCard, createNewCardData,
          defaultSettings, orQ, List.get]
        norm_num)
    (by simp [getSortedCards, ensureAll, getCardData, mapLookup, List.foldl,
          List.insertionSort, List.orderedInsert, sortRel, comparePriority, matRec,
          exSortMap2, exNewFuture, exNewCard, exReviewCard, createNewCardData,
          defaultSettings, orQ, List.get])
    (by simp [getSortedCards, ensureAll, getCardData, mapLookup, List.foldl,
          List.insertionSort, List.orderedInsert, sortRel, comparePriority, matRec,
          exSortMap2, exNewFuture, exNewCard, exReviewCard, createNewCardData,
          defaultSettings, orQ, List.get])

end Anki

end KindleCards
